import Mathlib

/-!
Shallow embedding of `tms4_data_reader.py` (class `TMSDataReader`).

File contents are modelled as `List Char` (the UTF-8 decoded text read by
`open(filepath, encoding="utf8").read()`).  The global
`data.replace(",", ".")` of the source is the character map `normChar`
applied to the whole text; since `','` and `'.'` are neither the line
separator `'\n'` nor the field separator `';'`, the global substitution
commutes with line splitting, and the embedding applies it per line.

`pd.read_csv(..., sep=";", header=None, names=DATA_FILE_SCHEMA,
dtype=DATA_FILE_SCHEMA)` is modelled by `decodeLine` per non-blank line
(pandas skips blank lines): a line must split into exactly 9 fields
(fewer fields are padded with NaN by pandas, which then fails the integer
dtype conversions; more fields raise `ParserError`), each field converted
to its schema type.  Any line failure, like the pandas exceptions, fails
the whole file (`decodeRaw` returns `none`), as does an empty file
(`EmptyDataError`, a `ValueError`).

Narrow floats (`float16` columns T1..T3) are modelled as exact decimal
values `Dec` (an integer mantissa and a power-of-ten exponent, trailing
zeros removed so that equal decimals compare equal, matching float
equality for the magnitudes in scope); an empty field is NaN, modelled as
`none`.  `float16` rounding, which can identify distinct nearby decimals,
is outside the scope of the claims.
-/

/-- The character map performed by `data.replace(",", ".")`. -/
def normChar (c : Char) : Char :=
  if c = ',' then '.' else c

/-- The global decimal-separator normalization over the whole raw text. -/
def replaceCommas (text : List Char) : List Char :=
  text.map normChar

/-- Split a character list at every occurrence of `sep` (the separator is
dropped); models Python/pandas splitting on `'\n'`, `';'`, etc.  Always
returns a non-empty list of chunks. -/
def splitSep (sep : Char) : List Char → List (List Char)
  | [] => [[]]
  | c :: rest =>
    if c = sep then
      [] :: splitSep sep rest
    else
      match splitSep sep rest with
      | [] => [[c]]
      | l :: ls => (c :: l) :: ls

/-- The first line of the raw text: what `fp.readline().rstrip("\n")`
returns after `fp.seek(0)`. -/
def firstLine (text : List Char) : List Char :=
  text.takeWhile (fun c => c ≠ '\n')

/-- `EMPTY_FILE_STRING = "File is empty"`. -/
def sentinel : List Char := "File is empty".data

/-- Value of a digit character. -/
def digitVal (c : Char) : Nat := c.toNat - 48

/-- Value of a list of digit characters (caller guarantees digits). -/
def digitsValU (l : List Char) : Nat :=
  l.foldl (fun acc c => acc * 10 + digitVal c) 0

/-- Parse a non-empty all-digit field into a `Nat`; models the strict
unsigned-integer conversions performed by the pandas dtype machinery. -/
def parseDigits (l : List Char) : Option Nat :=
  if l ≠ [] ∧ l.all Char.isDigit then some (digitsValU l) else none

/-- Parse an optionally `'-'`-signed integer field. -/
def parseIntChars : List Char → Option Int
  | '-' :: rest => (parseDigits rest).map (fun n => -(n : Int))
  | l => (parseDigits l).map (fun n => (n : Int))

/-- Parse a `Nat` field and require it below `bound` (the dtype width such
as `2 ^ 64` for `uint64`). -/
def parseBoundedNat (l : List Char) (bound : Nat) : Option Nat := do
  let n ← parseDigits l
  if n < bound then some n else none

/-- Parse an `int8` field (the `time zone` column). -/
def parseInt8 (l : List Char) : Option Int := do
  let i ← parseIntChars l
  if -128 ≤ i ∧ i ≤ 127 then some i else none

/-- Exact decimal value: `num / 10 ^ exp`, with trailing zeros of the
fractional part removed so that syntactically different spellings of the
same value (`5.1` vs `5.10`) are equal, as the decoded floats are. -/
structure Dec where
  num : Int
  exp : Nat
deriving DecidableEq, Repr

/-- Remove trailing zeros from the fractional part. -/
def decNorm (n : Int) : Nat → Dec
  | 0 => ⟨n, 0⟩
  | e + 1 => if n % 10 = 0 then decNorm (n / 10) e else ⟨n, e + 1⟩

/-- Parse the unsigned magnitude of a decimal numeral, returning the
scaled mantissa and the number of fractional digits. -/
def parseDecMag (l : List Char) : Option (Nat × Nat) :=
  match splitSep '.' l with
  | [ip] => (parseDigits ip).map (fun n => (n, 0))
  | [ip, fp] =>
    if ip.all Char.isDigit ∧ fp.all Char.isDigit ∧ (ip ≠ [] ∨ fp ≠ []) then
      some (digitsValU ip * 10 ^ fp.length + digitsValU fp, fp.length)
    else none
  | _ => none

/-- Parse an optionally signed decimal numeral into a `Dec`. -/
def parseDecSigned : List Char → Option Dec
  | '-' :: rest => (parseDecMag rest).map (fun p => decNorm (-(p.1 : Int)) p.2)
  | l => (parseDecMag l).map (fun p => decNorm (p.1 : Int) p.2)

/-- A float16 column field: empty is NaN (`none`), otherwise a decimal. -/
def parseOptDec (l : List Char) : Option (Option Dec) :=
  if l = [] then some none else (parseDecSigned l).map some

/-- A UTC instant as produced by `pd.to_datetime(..., utc=True)`. -/
structure UTCInstant where
  year : Nat
  month : Nat
  day : Nat
  hour : Nat
  minute : Nat
  second : Nat
deriving DecidableEq, Repr

/-- Parse `[year, month, day]` numeral chunks with basic range checks
(4-digit year, month 1..12, day 1..31; exact month lengths are outside
the claims in scope). -/
def parseDateYMD : List (List Char) → Option (Nat × Nat × Nat)
  | [ys, ms, ds] => do
    let y ← parseDigits ys
    let m ← parseDigits ms
    let d ← parseDigits ds
    if ys.length = 4 ∧ 1 ≤ m ∧ m ≤ 12 ∧ 1 ≤ d ∧ d ≤ 31 then
      some (y, m, d)
    else none
  | _ => none

/-- Generic year-first date: `YYYY-MM-DD` or `YYYY/MM/DD`. -/
def parseDateG (ds : List Char) : Option (Nat × Nat × Nat) :=
  match parseDateYMD (splitSep '-' ds) with
  | some r => some r
  | none => parseDateYMD (splitSep '/' ds)

/-- Parse `[hh, mm]` or `[hh, mm, ss]` numeral chunks with range checks. -/
def parseTimeCol : List (List Char) → Option (Nat × Nat × Nat)
  | [hs, ms] => do
    let h ← parseDigits hs
    let m ← parseDigits ms
    if h ≤ 23 ∧ m ≤ 59 then some (h, m, 0) else none
  | [hs, ms, ss] => do
    let h ← parseDigits hs
    let m ← parseDigits ms
    let s ← parseDigits ss
    if h ≤ 23 ∧ m ≤ 59 ∧ s ≤ 59 then some (h, m, s) else none
  | _ => none

/-- Stage (a) of `TimestampNormalizer`: `pd.to_datetime(...,
yearfirst=True, utc=True)` with format inference / dateutil, modelled for
the year-first encodings the loggers emit: a `YYYY-MM-DD` or `YYYY/MM/DD`
date, optionally followed (after `' '` or `'T'`) by a `':'`-separated
time. -/
def parseGeneric (l : List Char) : Option UTCInstant :=
  match splitSep ' ' (l.map (fun c => if c = 'T' then ' ' else c)) with
  | [ds] => do
    let (y, m, d) ← parseDateG ds
    pure ⟨y, m, d, 0, 0, 0⟩
  | [ds, ts] => do
    let (y, m, d) ← parseDateG ds
    let (hh, mm, ss) ← parseTimeCol (splitSep ':' ts)
    pure ⟨y, m, d, hh, mm, ss⟩
  | _ => none

/-- Stage (b) of `TimestampNormalizer`: the strict Lolly fallback
`pd.to_datetime(..., format="%Y/%m/%d %H.%M")`. -/
def parseLolly (l : List Char) : Option UTCInstant :=
  match splitSep ' ' l with
  | [ds, ts] => do
    let (y, m, d) ← parseDateYMD (splitSep '/' ds)
    match splitSep '.' ts with
    | [hs, ms] => do
      let hh ← parseDigits hs
      let mm ← parseDigits ms
      if hh ≤ 23 ∧ mm ≤ 59 then some ⟨y, m, d, hh, mm, 0⟩ else none
    | _ => none
  | _ => none

/-- `Option`-valued traversal of a list. -/
def optMap {α β : Type} (f : α → Option β) : List α → Option (List β)
  | [] => some []
  | a :: as =>
    match f a, optMap f as with
    | some b, some bs => some (b :: bs)
    | _, _ => none

/-- The whole-column timestamp conversion of `_read_file`: the generic
call is tried on the column first; the `except` clause catches its
failure (`dateutil.parser.ParserError` or the escalated "Could not infer
format" `UserWarning`) and retries with the strict Lolly format, whose
failure is NOT caught and escapes `_read_file` (modelled by `none` here,
turned into an error by `readFile`). -/
def parseTimestampColumn (ts : List (List Char)) : Option (List UTCInstant) :=
  match optMap parseGeneric ts with
  | some r => some r
  | none => optMap parseLolly ts

/-- One raw decoded line per `DATA_FILE_SCHEMA` (the timestamp column has
dtype `str` and is parsed separately). -/
structure RawRow where
  mid : Nat
  timestampRaw : List Char
  tz : Int
  t1 : Option Dec
  t2 : Option Dec
  t3 : Option Dec
  soilmoist : Nat
  shake : Nat
  errFlag : Nat
deriving DecidableEq, Repr

/-- Decode one non-blank, comma-normalized line per the schema: exactly 9
`';'`-separated fields, each converted to its declared dtype. -/
def decodeLine (l : List Char) : Option RawRow :=
  match splitSep ';' l with
  | [c0, c1, c2, c3, c4, c5, c6, c7, c8] => do
    let mid ← parseBoundedNat c0 (2 ^ 64)
    let tz ← parseInt8 c2
    let t1 ← parseOptDec c3
    let t2 ← parseOptDec c4
    let t3 ← parseOptDec c5
    let sm ← parseBoundedNat c6 (2 ^ 16)
    let sh ← parseBoundedNat c7 (2 ^ 8)
    let ef ← parseBoundedNat c8 (2 ^ 8)
    pure ⟨mid, c1, tz, t1, t2, t3, sm, sh, ef⟩
  | _ => none

/-- The non-blank lines of the comma-normalized text, in file order. -/
def dataLines (text : List Char) : List (List Char) :=
  ((splitSep '\n' text).map (List.map normChar)).filter (fun l => l ≠ [])

/-- The `pd.read_csv` call of `_read_file`: decode every non-blank line;
any line-level failure (wrong field count, dtype conversion failure) or
an empty file makes the whole call raise, modelled by `none`. -/
def decodeRaw (text : List Char) : Option (List RawRow) :=
  match dataLines text with
  | [] => none
  | ls => optMap decodeLine ls

/-- The column values of one row of the final data frame: everything
`drop_duplicates` compares.  `measurement_id` is NOT here: it was made
the index by `set_index("measurement_id")` and indexes are ignored by
`drop_duplicates`. -/
structure RowCols where
  timestamp : UTCInstant
  tz : Int
  t1 : Option Dec
  t2 : Option Dec
  t3 : Option Dec
  soilmoist : Nat
  shake : Nat
  errFlag : Nat
  read_time : Nat
deriving DecidableEq, Repr

/-- One row of a per-file data frame: the `measurement_id` index plus the
column values. -/
structure ParsedRow where
  measurement_id : Nat
  cols : RowCols
deriving DecidableEq, Repr

/-- Attach parsed timestamps and the file `read_time` (the modification
time, in whole seconds) to the raw rows. -/
def buildRows (mt : Nat) : List RawRow → List UTCInstant → List ParsedRow
  | r :: rs, t :: ts =>
    ⟨r.mid, ⟨t, r.tz, r.t1, r.t2, r.t3, r.soilmoist, r.shake, r.errFlag, mt⟩⟩
      :: buildRows mt rs ts
  | _, _ => []

/-- `df.drop_duplicates(keep="last")`: a row is removed when a LATER row
has identical column values (the index is not compared); survivors keep
their original relative order. -/
def dropDupKeepLast : List ParsedRow → List ParsedRow
  | [] => []
  | r :: rs =>
    if rs.any (fun x => decide (x.cols = r.cols)) then
      dropDupKeepLast rs
    else
      r :: dropDupKeepLast rs

/-- Why `_read_file` returned `None` (observable only through the logged
warning: "Empty file ..." vs "Failed reading file ...").  -/
inductive SkipReason where
  | emptyFile
  | readError
deriving DecidableEq, Repr

/-- Result of `_read_file`: a data frame, or `None` with a warning. -/
inductive ParseOutcome where
  | table (rows : List ParsedRow)
  | skipped (reason : SkipReason)
deriving DecidableEq, Repr

/-- Exceptions escaping `read()`: the uncaught failure of the fallback
`pd.to_datetime` call, and the `ValueError` of `pd.concat` when no
objects remain to concatenate. -/
inductive PErr where
  | timestampError
  | noObjects
deriving DecidableEq, Repr

/-- A data file as `read()` sees it: the logger id `_get_logger_id`
extracts from the glob-matched filename, the modification time in whole
seconds (`os.path.getmtime` rounded to `"s"`), the access time (present
on disk but never consulted by the reader — carried to state that the
result is independent of it), and the decoded text content. -/
structure DataFile where
  loggerId : Nat
  mtime : Nat
  atime : Nat
  text : List Char
deriving DecidableEq, Repr

/-- `TMSDataReader._read_file`: read and comma-normalize the text, decode
it per the schema (any `ParserError`/`ValueError` is caught: the file is
skipped, classified as an empty file when the first raw line is the
sentinel), then convert the timestamp column (an uncaught failure of the
fallback format is a raised error), attach `read_time`, and drop
duplicated rows keeping the last. -/
def readFile (f : DataFile) : Except PErr ParseOutcome :=
  match decodeRaw f.text with
  | none =>
    Except.ok (ParseOutcome.skipped
      (if firstLine f.text = sentinel then SkipReason.emptyFile
       else SkipReason.readError))
  | some raws =>
    match parseTimestampColumn (raws.map (fun r => r.timestampRaw)) with
    | none => Except.error PErr.timestampError
    | some ts =>
      Except.ok (ParseOutcome.table (dropDupKeepLast (buildRows f.mtime raws ts)))

/-- Insertion into the Python dict built by the comprehension in
`read()`: an existing key keeps its position (and original key object)
and has its value replaced; a new key is appended. -/
def insertKey (acc : List (Nat × ParseOutcome)) (k : Nat) (v : ParseOutcome) :
    List (Nat × ParseOutcome) :=
  if acc.any (fun p => decide (p.1 = k)) then
    acc.map (fun p => if p.1 = k then (p.1, v) else p)
  else
    acc ++ [(k, v)]

/-- Evaluate the dict comprehension of `read()` over the glob-matched
files in directory order: `_read_file` is invoked for every file (so an
uncaught exception from any file aborts the whole comprehension), and a
repeated logger id overwrites the earlier value. -/
def buildDict : List DataFile → List (Nat × ParseOutcome) →
    Except PErr (List (Nat × ParseOutcome))
  | [], acc => Except.ok acc
  | f :: fs, acc =>
    match readFile f with
    | Except.error e => Except.error e
    | Except.ok o => buildDict fs (insertKey acc f.loggerId o)

/-- The non-`None` data frames of the dict, each row prefixed with its
logger id (the outer level `pd.concat` adds, named `logger_id`). -/
def tablesOf (d : List (Nat × ParseOutcome)) : List (List (Nat × ParsedRow)) :=
  d.filterMap (fun p =>
    match p.2 with
    | ParseOutcome.table rows => some (rows.map (fun r => (p.1, r)))
    | ParseOutcome.skipped _ => none)

/-- `pd.concat` over the dict: `None` values are dropped; if nothing
remains a `ValueError` is raised; otherwise the tables are concatenated
in dict insertion order, preserving each table's row order. -/
def concatTables (d : List (Nat × ParseOutcome)) :
    Except PErr (List (Nat × ParsedRow)) :=
  match tablesOf d with
  | [] => Except.error PErr.noObjects
  | ts => Except.ok ts.flatten

/-- `TMSDataReader.read()` applied to the glob-matched files of the bound
directory, listed in directory order. -/
def read (files : List DataFile) : Except PErr (List (Nat × ParsedRow)) :=
  match buildDict files [] with
  | Except.error e => Except.error e
  | Except.ok d => concatTables d

/-- `TMSDataReader.loggers`: the logger ids extracted from the
glob-matched filenames (file contents are never consulted). -/
def loggersOf (files : List DataFile) : Finset Nat :=
  (files.map (fun f => f.loggerId)).toFinset

/-- `TMSDataReader.check_missing`: the expected ids minus the ids seen
among the matching filenames. -/
def check_missing (expected : Finset Nat) (files : List DataFile) : Finset Nat :=
  expected \ loggersOf files

/-- Everything `read()` consults about a file: logger id (from the name),
modification time and text content — not the access time. -/
def snapshot (f : DataFile) : Nat × Nat × List Char :=
  (f.loggerId, f.mtime, f.text)

/-- Lexicographic key of an instant, for stating chronological order. -/
def tsKey (t : UTCInstant) : Nat :=
  ((((t.year * 13 + t.month) * 32 + t.day) * 24 + t.hour) * 60 + t.minute) * 60
    + t.second

/-- Whether the merged rows are sorted by timestamp ascending. -/
def isSortedByTs : List (Nat × ParsedRow) → Bool
  | [] => true
  | [_] => true
  | a :: b :: rest =>
    decide (tsKey a.2.cols.timestamp ≤ tsKey b.2.cols.timestamp)
      && isSortedByTs (b :: rest)

/-- Whether `_read_file` produced anything other than a data frame. -/
def producesNoTable (f : DataFile) : Bool :=
  match readFile f with
  | Except.ok (ParseOutcome.table _) => false
  | _ => true

/-- The measurement ids of a parse outcome's data frame, `[]` otherwise. -/
def midsOf : Except PErr ParseOutcome → List Nat
  | Except.ok (ParseOutcome.table rows) => rows.map (fun r => r.measurement_id)
  | _ => []

/-- The rows of a successful `read()`, `[]` on a raised error. -/
def resultRows : Except PErr (List (Nat × ParsedRow)) → List (Nat × ParsedRow)
  | Except.ok l => l
  | Except.error _ => []

/-- Whether `read()` returned without raising. -/
def readOk : Except PErr (List (Nat × ParsedRow)) → Bool
  | Except.ok _ => true
  | Except.error _ => false


/-! ### Concrete directory snapshots used by witnesses and counterexamples -/

/-- A well-formed single-row file for logger 1. -/
def fileC1good : DataFile :=
  ⟨1, 50, 0, "10;2023-01-01 00:05:00;0;5.1;5.2;5.3;100;0;0".data⟩

/-- A file whose timestamp string matches neither known encoding. -/
def fileC1bad : DataFile :=
  ⟨2, 60, 1, "11;garbage;0;5.1;5.2;5.3;100;0;0".data⟩

/-- A directory holding one good file and one bad-timestamp file. -/
def filesC1 : List DataFile := [fileC1good, fileC1bad]

/-- Two rows identical in every column, differing only in the
measurement sequence number (the index). -/
def fileC2 : DataFile :=
  ⟨7, 100, 0,
    ("1;2023-01-01 00:05:00;0;5.1;5.2;5.3;100;0;0\n" ++
     "2;2023-01-01 00:05:00;0;5.1;5.2;5.3;100;0;0").data⟩

/-- The column values shared by both rows of `fileC2`. -/
def rowC2a : ParsedRow :=
  ⟨1, ⟨⟨2023, 1, 1, 0, 5, 0⟩, 0, some ⟨51, 1⟩, some ⟨52, 1⟩, some ⟨53, 1⟩,
    100, 0, 0, 100⟩⟩

/-- Same columns as `rowC2a`, different measurement sequence number. -/
def rowC2b : ParsedRow := ⟨2, rowC2a.cols⟩

/-- A well-formed single-row file for logger 3. -/
def fileC3good : DataFile :=
  ⟨3, 70, 0, "1;2023-01-01 00:05:00;0;1.5;2.5;3.5;200;1;0".data⟩

/-- The decodable first line of `fileC3bad`. -/
def lineC3a : List Char := "1;2023-01-01 00:05:00;0;5.1;5.2;5.3;100;0;0".data

/-- The line of `fileC3bad` whose T1 field fails the numeric decode. -/
def lineC3b : List Char := "2;2023-01-01 00:06:00;0;bad;5.2;5.3;100;0;0".data

/-- A file with one good row and one row with an unparseable numeric. -/
def fileC3bad : DataFile := ⟨4, 80, 0, lineC3a ++ '\n' :: lineC3b⟩

/-- A directory holding the good file and the bad-numeric-row file. -/
def filesC3 : List DataFile := [fileC3good, fileC3bad]

/-- Two rows sharing measurement sequence number 1 with different
timestamps and T1 values. -/
def fileC4 : DataFile :=
  ⟨5, 90, 0,
    ("1;2023-01-01 00:05:00;0;5.1;5.2;5.3;100;0;0\n" ++
     "1;2023-01-01 00:10:00;0;6.1;5.2;5.3;100;0;0").data⟩

/-- The two surviving rows of `fileC4` (both keep index value 1). -/
def rowsC4 : List ParsedRow :=
  [⟨1, ⟨⟨2023, 1, 1, 0, 5, 0⟩, 0, some ⟨51, 1⟩, some ⟨52, 1⟩, some ⟨53, 1⟩,
      100, 0, 0, 90⟩⟩,
   ⟨1, ⟨⟨2023, 1, 1, 0, 10, 0⟩, 0, some ⟨61, 1⟩, some ⟨52, 1⟩, some ⟨53, 1⟩,
      100, 0, 0, 90⟩⟩]

/-- An earlier data file of logger 6. -/
def fileC5a : DataFile :=
  ⟨6, 10, 0, "1;2023-01-01 00:05:00;0;5.1;5.2;5.3;100;0;0".data⟩

/-- A later data file of the same logger 6. -/
def fileC5b : DataFile :=
  ⟨6, 20, 0, "2;2023-02-01 00:05:00;0;7.1;7.2;7.3;300;0;0".data⟩

/-- The rows of `fileC5b`. -/
def rowsC5b : List ParsedRow :=
  [⟨2, ⟨⟨2023, 2, 1, 0, 5, 0⟩, 0, some ⟨71, 1⟩, some ⟨72, 1⟩, some ⟨73, 1⟩,
      300, 0, 0, 20⟩⟩]

/-- A file whose two rows are in reverse chronological order. -/
def fileC5x : DataFile :=
  ⟨6, 30, 0,
    ("1;2023-01-02 00:05:00;0;5.1;5.2;5.3;100;0;0\n" ++
     "2;2023-01-01 00:05:00;0;5.1;5.2;5.3;100;0;0").data⟩

/-- A directory holding only `fileC5x`. -/
def filesC5x : List DataFile := [fileC5x]

/-- A file of logger 1 whose content fails every structural decode. -/
def fileC6 : DataFile := ⟨1, 40, 0, "garbage".data⟩

/-- A file holding exactly the sentinel line. -/
def fileC7 : DataFile := ⟨9, 110, 0, sentinel⟩

/-- A well-formed sibling file for logger 8. -/
def fileC7g : DataFile :=
  ⟨8, 120, 0, "1;2023-01-01 00:05:00;0;5.1;5.2;5.3;100;0;0".data⟩

/-- A later sentinel re-read file for the SAME logger 8: its dict entry
overwrites the good file's table with `None`. -/
def fileC7s : DataFile := ⟨8, 125, 0, sentinel⟩

/-- A data file as seen by a first run of `read()`. -/
def fileC9a : DataFile :=
  ⟨12, 130, 5, "1;2023-01-01 00:05:00;0;5.1;5.2;5.3;100;0;0".data⟩

/-- The same file as seen by a second run: reading it the first time
updated its access time, but nothing else. -/
def fileC9b : DataFile :=
  ⟨12, 130, 99, "1;2023-01-01 00:05:00;0;5.1;5.2;5.3;100;0;0".data⟩

/-- A directory whose only matching file fails parsing. -/
def filesC10 : List DataFile := [⟨13, 140, 0, "junk".data⟩]

/-! ### Helper lemmas -/

theorem splitSep_ne_nil (sep : Char) : ∀ l : List Char, splitSep sep l ≠ [] := by
  intro l
  induction l with
  | nil => simp [splitSep]
  | cons c rest ih =>
    unfold splitSep
    by_cases hc : c = sep
    · simp [hc]
    · simp only [hc, if_false]
      cases hsp : splitSep sep rest with
      | nil => simp
      | cons x xs => simp

theorem mem_dropDupKeepLast {r : ParsedRow} :
    ∀ {rs : List ParsedRow}, r ∈ dropDupKeepLast rs → r ∈ rs := by
  intro rs
  induction rs with
  | nil => intro h; exact h
  | cons a as ih =>
    intro h
    unfold dropDupKeepLast at h
    split at h
    · exact List.mem_cons_of_mem _ (ih h)
    · rcases List.mem_cons.mp h with h1 | h2
      · exact h1 ▸ List.mem_cons_self _ _
      · exact List.mem_cons_of_mem _ (ih h2)

theorem dropDupKeepLast_pairwise (rs : List ParsedRow) :
    (dropDupKeepLast rs).Pairwise (fun a b => a.cols ≠ b.cols) := by
  induction rs with
  | nil => exact List.Pairwise.nil
  | cons a as ih =>
    unfold dropDupKeepLast
    split
    · exact ih
    · next hfalse =>
      refine List.Pairwise.cons ?_ ih
      intro b hb hcols
      apply hfalse
      exact List.any_eq_true.mpr
        ⟨b, mem_dropDupKeepLast hb, decide_eq_true (by rw [hcols])⟩

theorem buildDict_error {e : PErr} :
    ∀ (files : List DataFile) (acc : List (Nat × ParseOutcome)),
      (∃ f ∈ files, readFile f = Except.error e) →
      ∃ e2, buildDict files acc = Except.error e2 := by
  intro files
  induction files with
  | nil => intro acc ⟨f, hf, _⟩; exact absurd hf (List.not_mem_nil f)
  | cons g gs ih =>
    intro acc ⟨f, hf, herr⟩
    cases hrg : readFile g with
    | error e2 => exact ⟨e2, by simp [buildDict, hrg]⟩
    | ok o =>
      rcases List.mem_cons.mp hf with rfl | hmem
      · rw [hrg] at herr; exact absurd herr (by simp)
      · have := ih (insertKey acc g.loggerId o) ⟨f, hmem, herr⟩
        simpa [buildDict, hrg] using this

theorem buildDict_append :
    ∀ (xs ys : List DataFile) (acc : List (Nat × ParseOutcome)),
      buildDict (xs ++ ys) acc =
        match buildDict xs acc with
        | Except.error e => Except.error e
        | Except.ok d => buildDict ys d := by
  intro xs
  induction xs with
  | nil => intro ys acc; rfl
  | cons f fs ih =>
    intro ys acc
    simp only [List.cons_append, buildDict]
    cases readFile f with
    | error e => rfl
    | ok o => exact ih ys (insertKey acc f.loggerId o)

theorem mem_insertKey {p : Nat × ParseOutcome} {acc : List (Nat × ParseOutcome)}
    {k : Nat} {v : ParseOutcome} (h : p ∈ insertKey acc k v) :
    p ∈ acc ∨ p.2 = v := by
  unfold insertKey at h
  split at h
  · rcases List.mem_map.mp h with ⟨q, hq, hqe⟩
    by_cases hk : q.1 = k
    · right; rw [← hqe]; simp [hk]
    · left; rw [← hqe]; simpa [hk] using hq
  · rcases List.mem_append.mp h with h1 | h2
    · exact Or.inl h1
    · right; simp only [List.mem_singleton] at h2; rw [h2]

theorem insertKey_fst {x : Nat} {acc : List (Nat × ParseOutcome)} {k : Nat}
    {v : ParseOutcome} (h : x ∈ (insertKey acc k v).map Prod.fst) :
    x = k ∨ x ∈ acc.map Prod.fst := by
  unfold insertKey at h
  split at h
  · rcases List.mem_map.mp h with ⟨q, hq, hqe⟩
    rcases List.mem_map.mp hq with ⟨p, hp, hpe⟩
    by_cases hk : p.1 = k
    · left; rw [← hqe, ← hpe]; simp [hk]
    · right; rw [← hqe, ← hpe]; simp only [hk, if_false]
      exact List.mem_map.mpr ⟨p, hp, rfl⟩
  · rw [List.map_append] at h
    rcases List.mem_append.mp h with h1 | h2
    · exact Or.inr h1
    · left; simpa using h2

theorem buildDict_keys :
    ∀ (files : List DataFile) (acc d : List (Nat × ParseOutcome)),
      buildDict files acc = Except.ok d →
      ∀ x ∈ d.map Prod.fst,
        x ∈ acc.map Prod.fst ∨ x ∈ files.map DataFile.loggerId := by
  intro files
  induction files with
  | nil =>
    intro acc d h x hx
    simp only [buildDict] at h
    cases h
    exact Or.inl hx
  | cons f fs ih =>
    intro acc d h x hx
    simp only [buildDict] at h
    cases hrf : readFile f with
    | error e => rw [hrf] at h; exact absurd h (by simp)
    | ok o =>
      rw [hrf] at h
      rcases ih (insertKey acc f.loggerId o) d h x hx with h1 | h2
      · rcases insertKey_fst h1 with rfl | h3
        · exact Or.inr (by simp)
        · exact Or.inl h3
      · exact Or.inr (List.mem_cons_of_mem _ h2)

theorem optMap_eq_none {α β : Type} {f : α → Option β} {a : α} :
    ∀ {l : List α}, a ∈ l → f a = none → optMap f l = none := by
  intro l
  induction l with
  | nil => intro h; exact absurd h (List.not_mem_nil a)
  | cons x xs ih =>
    intro hmem hnone
    rcases List.mem_cons.mp hmem with rfl | h2
    · simp [optMap, hnone]
    · unfold optMap
      rw [ih h2 hnone]
      cases f x <;> rfl

theorem buildDict_allSkipped :
    ∀ (files : List DataFile) (acc : List (Nat × ParseOutcome)),
      (∀ p ∈ acc, ∀ rows, p.2 ≠ ParseOutcome.table rows) →
      files.all producesNoTable = true →
      (∃ e, buildDict files acc = Except.error e) ∨
        (∃ d, buildDict files acc = Except.ok d ∧
          ∀ p ∈ d, ∀ rows, p.2 ≠ ParseOutcome.table rows) := by
  intro files
  induction files with
  | nil =>
    intro acc hacc _
    exact Or.inr ⟨acc, rfl, hacc⟩
  | cons f fs ih =>
    intro acc hacc hall
    rw [List.all_cons, Bool.and_eq_true] at hall
    cases hrf : readFile f with
    | error e => exact Or.inl ⟨e, by simp [buildDict, hrf]⟩
    | ok o =>
      have hno : ∀ rows, o ≠ ParseOutcome.table rows := by
        intro rows hor
        have := hall.1
        rw [producesNoTable, hrf, hor] at this
        exact absurd this (by simp)
      have hacc2 : ∀ p ∈ insertKey acc f.loggerId o, ∀ rows,
          p.2 ≠ ParseOutcome.table rows := by
        intro p hp rows
        rcases mem_insertKey hp with h1 | h2
        · exact hacc p h1 rows
        · rw [h2]; exact hno rows
      have := ih (insertKey acc f.loggerId o) hacc2 hall.2
      simpa [buildDict, hrf] using this

theorem tablesOf_eq_nil {d : List (Nat × ParseOutcome)}
    (h : ∀ p ∈ d, ∀ rows, p.2 ≠ ParseOutcome.table rows) :
    tablesOf d = [] := by
  unfold tablesOf
  rw [List.filterMap_eq_nil_iff]
  intro p hp
  cases ho : p.2 with
  | table rows => exact absurd ho (h p hp rows)
  | skipped r => simp [ho]

theorem concatTables_insert_skipped {d : List (Nat × ParseOutcome)} {k : Nat}
    {r : SkipReason} (hk : ∀ p ∈ d, p.1 ≠ k) :
    concatTables (insertKey d k (ParseOutcome.skipped r)) = concatTables d := by
  have hany : d.any (fun p => decide (p.1 = k)) = false := by
    rw [List.any_eq_false]
    intro p hp
    simpa using hk p hp
  unfold insertKey
  rw [hany]
  simp only [Bool.false_eq_true, if_false]
  unfold concatTables
  have : tablesOf (d ++ [(k, ParseOutcome.skipped r)]) = tablesOf d := by
    unfold tablesOf
    rw [List.filterMap_append]
    simp
  rw [this]

theorem readFile_congr {f g : DataFile} (h : snapshot f = snapshot g) :
    readFile f = readFile g := by
  obtain ⟨fi, fm, fa, ft⟩ := f
  obtain ⟨gi, gm, ga, gt⟩ := g
  simp only [snapshot, Prod.mk.injEq] at h
  obtain ⟨-, h2, h3⟩ := h
  subst h2; subst h3
  rfl

theorem buildDict_congr :
    ∀ (files1 files2 : List DataFile) (acc : List (Nat × ParseOutcome)),
      files1.map snapshot = files2.map snapshot →
      buildDict files1 acc = buildDict files2 acc := by
  intro files1
  induction files1 with
  | nil =>
    intro files2 acc h
    cases files2 with
    | nil => rfl
    | cons g gs => exact absurd h (by simp)
  | cons f fs ih =>
    intro files2 acc h
    cases files2 with
    | nil => exact absurd h (by simp)
    | cons g gs =>
      simp only [List.map_cons, List.cons.injEq] at h
      rw [buildDict, buildDict, readFile_congr h.1]
      cases readFile g with
      | error e => rfl
      | ok o =>
        have hk : f.loggerId = g.loggerId := congrArg Prod.fst h.1
        rw [hk]
        exact ih gs (insertKey acc g.loggerId o) h.2

theorem normChar_newline_iff (c : Char) : normChar c = '\n' ↔ c = '\n' := by
  unfold normChar
  by_cases hc : c = ','
  · subst hc; simp
  · simp [hc]

theorem normChar_idem (c : Char) : normChar (normChar c) = normChar c := by
  unfold normChar
  by_cases hc : c = ','
  · subst hc; simp
  · simp [hc]

theorem splitSep_map (sep : Char) (g : Char → Char)
    (hg : ∀ c, g c = sep ↔ c = sep) :
    ∀ l : List Char, splitSep sep (l.map g) = (splitSep sep l).map (List.map g) := by
  intro l
  induction l with
  | nil => rfl
  | cons c rest ih =>
    by_cases hc : c = sep
    · subst hc
      simp only [List.map_cons, splitSep, (hg c).mpr rfl, if_true, ih,
        List.map_nil]
    · have hgc : ¬ g c = sep := fun h => hc ((hg c).mp h)
      cases hsp : splitSep sep rest with
      | nil => exact absurd hsp (splitSep_ne_nil sep rest)
      | cons x xs =>
        rw [hsp] at ih
        simp only [List.map_cons, splitSep, hgc, if_false, hc, ih, hsp]

theorem map_normChar_map_normChar (L : List (List Char)) :
    (L.map (List.map normChar)).map (List.map normChar) =
      L.map (List.map normChar) := by
  rw [List.map_map]
  apply List.map_congr_left
  intro l _
  show List.map normChar (List.map normChar l) = List.map normChar l
  rw [List.map_map]
  apply List.map_congr_left
  intro c _
  exact normChar_idem c

theorem dataLines_replaceCommas (t : List Char) :
    dataLines (replaceCommas t) = dataLines t := by
  unfold dataLines replaceCommas
  rw [splitSep_map '\n' normChar normChar_newline_iff t,
    map_normChar_map_normChar]

theorem decodeRaw_replaceCommas (t : List Char) :
    decodeRaw (replaceCommas t) = decodeRaw t := by
  unfold decodeRaw
  rw [dataLines_replaceCommas]

theorem takeWhile_map {α : Type} (g : α → α) (q : α → Bool) :
    ∀ l : List α, (l.map g).takeWhile q = (l.takeWhile (fun c => q (g c))).map g := by
  intro l
  induction l with
  | nil => rfl
  | cons c rest ih =>
    simp only [List.map_cons, List.takeWhile_cons]
    cases hq : q (g c) with
    | true => simp [hq, ih]
    | false => simp [hq]

theorem firstLine_replaceCommas (t : List Char) :
    firstLine (replaceCommas t) = (firstLine t).map normChar := by
  unfold firstLine replaceCommas
  rw [takeWhile_map]
  have hpq : (fun c => decide (normChar c ≠ '\n')) = (fun c : Char => decide (c ≠ '\n')) :=
    funext fun c => decide_eq_decide.mpr (not_congr (normChar_newline_iff c))
  rw [hpq]

theorem map_normChar_eq_of_fixed {s : List Char}
    (hs : ∀ x ∈ s, x ≠ '.' ∧ x ≠ ',') :
    ∀ l : List Char, l.map normChar = s ↔ l = s := by
  induction s with
  | nil => intro l; cases l <;> simp
  | cons x xs ih =>
    intro l
    cases l with
    | nil => simp
    | cons c cs =>
      have hx := hs x (List.mem_cons_self x xs)
      have hxs : ∀ y ∈ xs, y ≠ '.' ∧ y ≠ ',' := fun y hy =>
        hs y (List.mem_cons_of_mem x hy)
      simp only [List.map_cons, List.cons.injEq]
      constructor
      · rintro ⟨h1, h2⟩
        refine ⟨?_, (ih hxs cs).mp h2⟩
        by_cases hc : c = ','
        · subst hc
          rw [normChar] at h1
          simp at h1
          exact absurd h1.symm hx.1
        · rwa [normChar, if_neg hc] at h1
      · rintro ⟨h1, h2⟩
        subst h1
        refine ⟨?_, (ih hxs cs).mpr h2⟩
        rw [normChar, if_neg (fun h => hx.2 h)]

theorem sentinel_chars : ∀ x ∈ sentinel, x ≠ '.' ∧ x ≠ ',' := by decide

theorem firstLine_sentinel_iff (t : List Char) :
    (firstLine (replaceCommas t) = sentinel) ↔ (firstLine t = sentinel) := by
  rw [firstLine_replaceCommas]
  exact map_normChar_eq_of_fixed sentinel_chars (firstLine t)

theorem readFile_replaceCommas (i m a : Nat) (t : List Char) :
    readFile ⟨i, m, a, replaceCommas t⟩ = readFile ⟨i, m, a, t⟩ := by
  show (match decodeRaw (replaceCommas t) with
    | none =>
      Except.ok (ParseOutcome.skipped
        (if firstLine (replaceCommas t) = sentinel then SkipReason.emptyFile
         else SkipReason.readError))
    | some raws =>
      match parseTimestampColumn (raws.map (fun r => r.timestampRaw)) with
      | none => Except.error PErr.timestampError
      | some ts =>
        Except.ok (ParseOutcome.table (dropDupKeepLast (buildRows m raws ts)))) =
    readFile ⟨i, m, a, t⟩
  rw [decodeRaw_replaceCommas]
  unfold readFile
  cases hdr : decodeRaw t with
  | none =>
    simp only []
    rw [if_congr (firstLine_sentinel_iff t) rfl rfl]
  | some raws => rfl

theorem read_def (files : List DataFile) :
    read files =
      match buildDict files [] with
      | Except.error e => Except.error e
      | Except.ok d => concatTables d := rfl

/-! ### Claims -/

/-- C1 (amended): when a data file's raw timestamp strings fail both
known encodings (the generic year-first parsing and the fallback format
`YYYY/MM/DD HH.MM`), the fallback `pd.to_datetime` call raises outside
any `try` block, so `read()` on the containing directory raises instead
of returning the dataset assembled from the remaining files. -/
theorem C1_theorem (files : List DataFile) (f : DataFile)
    (hmem : f ∈ files) (herr : readFile f = Except.error PErr.timestampError) :
    ∃ e, read files = Except.error e := by
  obtain ⟨e2, h2⟩ := buildDict_error files [] ⟨f, hmem, herr⟩
  refine ⟨e2, ?_⟩
  rw [read_def, h2]

/-- C1 witness: a concrete directory with one good file and one
bad-timestamp file, on which `read()` raises. -/
theorem C1_witness :
    (fileC1bad ∈ filesC1 ∧
      readFile fileC1bad = Except.error PErr.timestampError) ∧
      ∃ e, read filesC1 = Except.error e :=
  ⟨⟨by decide, rfl⟩, C1_theorem filesC1 fileC1bad (by decide) rfl⟩

/-- C1 counterexample: `filesC1` holds a perfectly parseable file
(`fileC1good` yields a table), yet `read()` raises the timestamp error of
the sibling file instead of returning the good file's dataset. -/
theorem C1_cx :
    producesNoTable fileC1good = false ∧
      read filesC1 = Except.error PErr.timestampError :=
  ⟨rfl, rfl⟩

/-- C2 (amended): `drop_duplicates` compares only the data-frame columns
and ignores the `measurement_id` index, so two rows identical in every
column but the measurement sequence number are collapsed: only the last
occurrence is kept. -/
theorem C2_theorem (r1 r2 : ParsedRow) (h : r1.cols = r2.cols) :
    dropDupKeepLast [r1, r2] = [r2] := by
  simp [dropDupKeepLast, h]

/-- C2 witness: two concrete rows with equal columns and measurement
sequence numbers 1 and 2; deduplication keeps only the second. -/
theorem C2_witness :
    rowC2a.cols = rowC2b.cols ∧ dropDupKeepLast [rowC2a, rowC2b] = [rowC2b] :=
  ⟨rfl, C2_theorem rowC2a rowC2b rfl⟩

/-- C2 counterexample: `fileC2` holds two data lines that differ only in
measurement sequence number, but the resulting table retains a single
row (the last one, index 2) — not both. -/
theorem C2_cx :
    (dataLines fileC2.text).length = 2 ∧ midsOf (readFile fileC2) = [2] :=
  ⟨rfl, rfl⟩

/-- C3 (amended): a row whose numeric column still fails strict typed
decoding after decimal-separator normalization makes the whole
`pd.read_csv` call raise, so the ENTIRE file is skipped with a warning
(`_read_file` returns `None`); no row of the file is kept. -/
theorem C3_theorem (f : DataFile) (l : List Char)
    (hmem : l ∈ dataLines f.text) (hbad : decodeLine l = none)
    (hsent : ¬ firstLine f.text = sentinel) :
    readFile f = Except.ok (ParseOutcome.skipped SkipReason.readError) := by
  have h1 : optMap decodeLine (dataLines f.text) = none :=
    optMap_eq_none hmem hbad
  have hdr : decodeRaw f.text = none := by
    unfold decodeRaw
    cases hdl : dataLines f.text with
    | nil => rfl
    | cons x xs => rw [hdl] at h1; exact h1
  unfold readFile
  rw [hdr]
  simp [hsent]

/-- C3 witness: the file with one good row and one bad-numeric row is
skipped wholesale. -/
theorem C3_witness :
    (lineC3b ∈ dataLines fileC3bad.text ∧ decodeLine lineC3b = none ∧
      ¬ firstLine fileC3bad.text = sentinel) ∧
      readFile fileC3bad = Except.ok (ParseOutcome.skipped SkipReason.readError) :=
  ⟨⟨by decide, rfl, by decide⟩,
    C3_theorem fileC3bad lineC3b (by decide) rfl (by decide)⟩

/-- C3 counterexample: `fileC3bad`'s first line decodes fine, yet after
the bad second row the whole file contributes nothing: `read` over the
directory returns rows of logger 3 only, and none of logger 4. -/
theorem C3_cx :
    (decodeLine lineC3a).isSome = true ∧
      readFile fileC3bad = Except.ok (ParseOutcome.skipped SkipReason.readError) ∧
      (resultRows (read filesC3)).map Prod.fst = [3] :=
  ⟨rfl, rfl, rfl⟩

/-- C4 (amended): the surviving invariant of a per-file table is that no
two rows agree on ALL columns (timestamp, time zone, T1..T3, counts and
`read_time`); the measurement sequence number is the index, excluded from
the duplicate key, so rows sharing it can and do survive together. -/
theorem C4_theorem (f : DataFile) (rows : List ParsedRow)
    (h : readFile f = Except.ok (ParseOutcome.table rows)) :
    rows.Pairwise (fun a b => a.cols ≠ b.cols) := by
  unfold readFile at h
  split at h
  · exact absurd h (by simp)
  · split at h
    · exact absurd h (by simp)
    · simp only [Except.ok.injEq, ParseOutcome.table.injEq] at h
      rw [← h]
      exact dropDupKeepLast_pairwise _

/-- C4 witness: a concrete table on which the column-wise pairwise
distinctness holds. -/
theorem C4_witness :
    readFile fileC4 = Except.ok (ParseOutcome.table rowsC4) ∧
      rowsC4.Pairwise (fun a b => a.cols ≠ b.cols) :=
  ⟨rfl, C4_theorem fileC4 rowsC4 rfl⟩

/-- C4 counterexample: both rows of `fileC4`'s table carry measurement
sequence number 1 — the claimed (logger ID, sequence number) uniqueness
fails inside a single per-logger table. -/
theorem C4_cx : midsOf (readFile fileC4) = [1, 1] := rfl

/-- C5 (amended): `read()` performs no sorting — rows keep per-file
order, concatenated in dict insertion order — and the dict comprehension
keyed by logger ID makes a later file of the same logger REPLACE the
earlier one: only the last file's table survives, its rows prefixed with
the logger id. -/
theorem C5_theorem (f1 f2 : DataFile) (rows1 rows2 : List ParsedRow)
    (hid : f2.loggerId = f1.loggerId)
    (h1 : readFile f1 = Except.ok (ParseOutcome.table rows1))
    (h2 : readFile f2 = Except.ok (ParseOutcome.table rows2)) :
    read [f1, f2] = Except.ok (rows2.map (fun r => (f1.loggerId, r))) := by
  rw [read_def]
  simp [buildDict, h1, h2, insertKey, hid, concatTables, tablesOf]

/-- C5 witness: two concrete files of logger 6; `read` returns only the
second file's rows. -/
theorem C5_witness :
    (fileC5b.loggerId = fileC5a.loggerId ∧
      readFile fileC5a = Except.ok (ParseOutcome.table
        [⟨1, ⟨⟨2023, 1, 1, 0, 5, 0⟩, 0, some ⟨51, 1⟩, some ⟨52, 1⟩,
          some ⟨53, 1⟩, 100, 0, 0, 10⟩⟩]) ∧
      readFile fileC5b = Except.ok (ParseOutcome.table rowsC5b)) ∧
      read [fileC5a, fileC5b] =
        Except.ok (rowsC5b.map (fun r => (fileC5a.loggerId, r))) :=
  ⟨⟨rfl, rfl, rfl⟩,
    C5_theorem fileC5a fileC5b _ rowsC5b rfl rfl rfl⟩

/-- C5 counterexample: `read` succeeds on `filesC5x` but its rows are
not sorted by timestamp ascending. -/
theorem C5_cx :
    readOk (read filesC5x) = true ∧
      isSortedByTs (resultRows (read filesC5x)) = false :=
  ⟨rfl, rfl⟩

/-- C6 (amended): `check_missing` subtracts the logger ids extracted
from the MATCHING FILENAMES, regardless of file contents: any expected
logger that has a matching file — even one contributing zero rows
because parsing failed — is reported as present, never as missing. -/
theorem C6_theorem (expected : Finset Nat) (files : List DataFile)
    (f : DataFile) (hmem : f ∈ files) :
    f.loggerId ∉ check_missing expected files := by
  unfold check_missing
  rw [Finset.mem_sdiff]
  rintro ⟨-, habs⟩
  apply habs
  unfold loggersOf
  rw [List.mem_toFinset]
  exact List.mem_map.mpr ⟨f, hmem, rfl⟩

/-- C6 witness: logger 1's (unparseable) file keeps 1 out of the missing
set. -/
theorem C6_witness :
    fileC6 ∈ [fileC6] ∧ fileC6.loggerId ∉ check_missing {1} [fileC6] :=
  ⟨by decide, C6_theorem {1} [fileC6] fileC6 (by decide)⟩

/-- C6 counterexample: logger 1's only file fails parsing, so it
contributes zero rows to the dataset, yet `check_missing {1}` returns
the empty set instead of `{1}`. -/
theorem C6_cx :
    check_missing {1} [fileC6] = ∅ ∧
      readFile fileC6 = Except.ok (ParseOutcome.skipped SkipReason.readError) ∧
      resultRows (read [fileC6]) = [] :=
  ⟨by decide, rfl, rfl⟩

/-- C7 (amended): a file holding exactly the sentinel line
"File is empty" contributes zero rows and is skipped as the
informational empty-file case (not the generic read failure), but
`read()` over the directory is unchanged by the file's presence ONLY
when the sentinel file's logger id does not also belong to one of the
other files: a sentinel re-read for an already-seen logger overwrites
that logger's dict entry with `None`, removing its rows (and `read()`
raises whenever no table remains — even with the sentinel file as the
sole matching file); both failure modes are in the counterexample. -/
theorem C7_theorem (gs : List DataFile) (f : DataFile)
    (hsent : f.text = sentinel ∨ f.text = sentinel ++ ['\n'])
    (hfresh : f.loggerId ∉ loggersOf gs) :
    readFile f = Except.ok (ParseOutcome.skipped SkipReason.emptyFile) ∧
      read (gs ++ [f]) = read gs := by
  have hrf : readFile f = Except.ok (ParseOutcome.skipped SkipReason.emptyFile) := by
    obtain ⟨i, m, a, t⟩ := f
    rcases hsent with h | h
    · simp only at h
      subst h
      rfl
    · simp only at h
      subst h
      rfl
  refine ⟨hrf, ?_⟩
  rw [read_def, read_def, buildDict_append]
  cases hbd : buildDict gs [] with
  | error e => rfl
  | ok d =>
    have hstep : buildDict [f] d =
        Except.ok (insertKey d f.loggerId
          (ParseOutcome.skipped SkipReason.emptyFile)) := by
      simp [buildDict, hrf]
    simp only [hstep]
    apply concatTables_insert_skipped
    intro p hp hpk
    rcases buildDict_keys gs [] d hbd p.1 (List.mem_map.mpr ⟨p, hp, rfl⟩) with
      h1 | h2
    · simp at h1
    · rw [hpk] at h2
      apply hfresh
      unfold loggersOf
      rw [List.mem_toFinset]
      simpa using h2

/-- C7 witness: the sentinel file of logger 9 beside a good file of
logger 8: it is skipped as the informational empty-file case and leaves
`read()`'s result unchanged. -/
theorem C7_witness :
    ((fileC7.text = sentinel ∨ fileC7.text = sentinel ++ ['\n']) ∧
      fileC7.loggerId ∉ loggersOf [fileC7g]) ∧
      readFile fileC7 = Except.ok (ParseOutcome.skipped SkipReason.emptyFile) ∧
      read ([fileC7g] ++ [fileC7]) = read [fileC7g] :=
  ⟨⟨Or.inl rfl, by decide⟩,
    C7_theorem [fileC7g] fileC7 (Or.inl rfl) (by decide)⟩

/-- C7 counterexample: two ways the unconditional "read() on the
containing directory does not fail" is false.  Alone, the sentinel file
leaves `pd.concat` an all-`None` dict, which raises.  Worse, a sentinel
re-read for logger 8 beside logger 8's GOOD file overwrites that
logger's dict entry with `None`, so `read()` raises even though the
directory contains a file yielding a table. -/
theorem C7_cx :
    read [fileC7] = Except.error PErr.noObjects ∧
      readOk (read [fileC7g]) = true ∧
      read [fileC7g, fileC7s] = Except.error PErr.noObjects :=
  ⟨rfl, rfl, rfl⟩

/-- C8: the pipeline of `_read_file` is invariant under replacing every
comma of the full raw text by a period — the global
`data.replace(",", ".")` performed before `pd.read_csv`: decoding a
file's text and decoding its comma-normalized text give the same result
(same rows, same skip classification), because the normalization is
applied before structured decoding and is idempotent, and the sentinel
first-line check is unaffected. -/
theorem C8_theorem (f : DataFile) :
    readFile f = readFile ⟨f.loggerId, f.mtime, f.atime, replaceCommas f.text⟩ := by
  obtain ⟨i, m, a, t⟩ := f
  exact (readFile_replaceCommas i m a t).symm

/-- C9: `read()` is a pure function of the directory snapshot — the
logger ids parsed from the matching filenames, the file texts, and the
file modification times (which alone determine each row's `read_time`).
Two runs over an unchanged directory, which may differ in anything else
(such as access times updated by the first run), return identical
datasets. -/
theorem C9_theorem (files1 files2 : List DataFile)
    (h : files1.map snapshot = files2.map snapshot) :
    read files1 = read files2 := by
  rw [read_def, read_def, buildDict_congr files1 files2 [] h]

/-- C9 witness: the same file seen by two runs, the access time changed
in between; `read()` returns identical results. -/
theorem C9_witness :
    ([fileC9a].map snapshot = [fileC9b].map snapshot ∧
      fileC9a.atime ≠ fileC9b.atime) ∧
      read [fileC9a] = read [fileC9b] :=
  ⟨⟨by decide, by decide⟩, C9_theorem [fileC9a] [fileC9b] (by decide)⟩

/-- C10: when no matching file yields a table — the directory has no
matching files at all, or every per-file parse was skipped — `pd.concat`
has no objects to concatenate and raises, so `read()` raises instead of
returning an empty dataset. -/
theorem C10_theorem (files : List DataFile)
    (h : files.all producesNoTable = true) :
    ∃ e, read files = Except.error e := by
  rcases buildDict_allSkipped files []
      (fun p hp => absurd hp (List.not_mem_nil p)) h with
    ⟨e, he⟩ | ⟨d, hd, hall⟩
  · exact ⟨e, by rw [read_def, he]⟩
  · refine ⟨PErr.noObjects, ?_⟩
    rw [read_def, hd]
    show concatTables d = Except.error PErr.noObjects
    unfold concatTables
    rw [tablesOf_eq_nil hall]

/-- C10 witness: a directory whose only matching file fails parsing;
`read()` raises. -/
theorem C10_witness :
    filesC10.all producesNoTable = true ∧
      ∃ e, read filesC10 = Except.error e :=
  ⟨rfl, C10_theorem filesC10 rfl⟩
